import Mathlib

/-!
# xclog: leveled logging

A shallow embedding of `xclog.go` and the properties of its routing, header
formatting, threshold state, stack capture and fatal sequence.

Conventions of the embedding.

* `severity` is Go's `type severity int32`.  No arithmetic is ever performed on
  a severity (only comparisons, stores and one table lookup), so it is modelled
  by `Int`; every theorem quantifies over all integers, the 32-bit ones included.
* Go strings and byte slices are modelled by `String`.  The only byte-level
  operations of the program are the search for the byte `/` and slicing right
  after it; `/` is a single byte that never occurs inside a multi-byte UTF-8
  sequence, so positions counted in characters slice at the same place.
* The process-wide variable `logging` is passed explicitly; the mutex is kept
  only as `lock`/`unlock` events.
* What the program reads from its runtime (the clock, the caller location, the
  text of the stack trace, whether the flush beats its timer) is a `Runtime`
  value passed explicitly.
* What the program does to the outside world is a list of `Event`s together
  with an `Outcome` saying whether the call returned or ended the process.
-/

namespace xclog

/-! ## Severity scale (xclog.go, lines 16-42) -/

/-- Go: `type severity int32`. -/
abbrev severity := Int

def NONE : severity := 0
def FATAL : severity := 1
def CRIT : severity := 2
def ERROR : severity := 3
def WARN : severity := 4
def NOTICE : severity := 5
def INFO : severity := 6
def VERBOSE : severity := 7
def DEBUG : severity := 8
def numSeverity : severity := 9

/-- Go: `const severityChar = " FCEWNIVD"`. -/
def severityChar : String := " FCEWNIVD"

/-- Go: the index expression `severityChar[s]`; `none` stands for the run-time
panic of an index out of range (negative, or not below the length). -/
def severityCharAt (s : severity) : Option Char :=
  if s < 0 then none else severityChar.data[s.toNat]?

/-! ## Threshold state (lines 44-89, 224-232) -/

/-- Go: `type loggingT struct`, without the mutex. -/
structure loggingT where
  difflevel : severity
  errlevel : severity
  outlevel : severity
deriving DecidableEq, Repr

/-- Go: `func init()`, the state installed at process start. -/
def init : loggingT :=
  { difflevel := WARN, errlevel := ERROR, outlevel := INFO }

def loggingT.setDiffLevel (l : loggingT) (s : severity) : loggingT :=
  { l with difflevel := s }

def loggingT.setErrLevel (l : loggingT) (s : severity) : loggingT :=
  { l with errlevel := s }

def loggingT.setOutLevel (l : loggingT) (s : severity) : loggingT :=
  { l with outlevel := s }

def loggingT.getDiffLevel (l : loggingT) : severity := l.difflevel

def loggingT.getErrLevel (l : loggingT) : severity := l.errlevel

def loggingT.getOutLevel (l : loggingT) : severity := l.outlevel

/-- Go: `func SetDiffLevel(s severity)`, acting on the global `logging`. -/
def SetDiffLevel (logging : loggingT) (s : severity) : loggingT :=
  logging.setDiffLevel s

/-- Go: `func SetErrLevel(s severity)`. -/
def SetErrLevel (logging : loggingT) (s : severity) : loggingT :=
  logging.setErrLevel s

/-- Go: `func SetOutLevel(s severity)`. -/
def SetOutLevel (logging : loggingT) (s : severity) : loggingT :=
  logging.setOutLevel s

/-! ## The runtime and the outside world -/

/-- The two standard streams (`os.Stderr`, `os.Stdout`). -/
inductive Stream where
  | Stderr
  | Stdout
deriving DecidableEq, Repr

/-- Observable actions of the program, in the order they happen. -/
inductive Event where
  | lock
  | unlock
  | write (out : Stream) (data : String)
  | sync (out : Stream)
deriving DecidableEq, Repr

/-- How a call ends: it returns to its caller, the process ends through
`os.Exit`, or the goroutine panics. -/
inductive Outcome where
  | returned
  | exited (code : Int)
  | panicked
deriving DecidableEq, Repr

/-- Result of `now.Date()` and `now.Clock()` (the year is discarded by the code). -/
structure Time where
  month : Int
  day : Int
  hour : Int
  minute : Int
  second : Int
deriving DecidableEq, Repr

/-- Result of `runtime.Caller(3)` (the program counter is discarded by the code). -/
structure Caller where
  file : String
  line : Int
  ok : Bool
deriving DecidableEq, Repr

/-- Everything the program reads from its runtime during one emission. -/
structure Runtime where
  now : Time
  caller : Caller
  /-- The full text `runtime.Stack` would format, for `all = false` and `all = true`. -/
  stackTrace : Bool → String
  /-- Whether `Flush` finishes before the timer of `timeoutFlush` fires. -/
  flushInTime : Bool

/-! ## Library functions used by the program -/

/-- Go: `strings.LastIndex(s, "/")` for a one-byte separator: the index of the
last occurrence of `c`, or `-1` when there is none. -/
def LastIndex : List Char → Char → Int
  | [], _ => -1
  | x :: xs, c =>
    let r := LastIndex xs c
    if r ≥ 0 then r + 1 else if x = c then 0 else -1

/-- Left padding with zeros up to `w` characters, as `fmt` does for the `0` flag. -/
def padZeros (w : Nat) (digits : String) : String :=
  String.mk (List.replicate (w - digits.length) '0') ++ digits

/-- Go: the verb `%0wd` of `fmt` on an integer (`%d` is `w = 0`): decimal
digits, zero-padded to width `w`, the sign counting in the width. -/
def fmtInt (w : Nat) (n : Int) : String :=
  if n < 0 then "-" ++ padZeros (w - 1) (Nat.repr n.natAbs)
  else padZeros w (Nat.repr n.natAbs)

/-- Go: `runtime.Stack(buf, all)`: writes the trace into `buf`, as much as
fits, and returns the buffer together with the number of bytes written. -/
def runtimeStack (trace : List Char) (buf : List Char) : List Char × Nat :=
  let nbytes := min trace.length buf.length
  (trace.take nbytes ++ buf.drop nbytes, nbytes)

/-! ## Header formatter (lines 107-132) -/

/-- Go: `func (l *loggingT) header(s severity) string`.  `none` is the panic of
`severityChar[s]`. -/
def header (rt : Runtime) (s : severity) : Option String :=
  let now := rt.now
  let (file, line) : String × Int :=
    if !rt.caller.ok then
      ("???", 1)
    else
      let slash := LastIndex rt.caller.file.data '/'
      if slash ≥ 0 then
        (String.mk (rt.caller.file.data.drop (slash + 1).toNat), rt.caller.line)
      else
        (rt.caller.file, rt.caller.line)
  let line := if line < 0 then 0 else line
  match severityCharAt s with
  | none => none
  | some c =>
    some (String.singleton c ++ fmtInt 2 now.month ++ fmtInt 2 now.day ++ " "
      ++ fmtInt 2 now.hour ++ ":" ++ fmtInt 2 now.minute ++ ":" ++ fmtInt 2 now.second
      ++ " " ++ file ++ ":" ++ fmtInt 0 line ++ "] ")

/-! ## Stack capture (lines 203-220) -/

/-- The `for i := 0; i < 5; i++` loop of `stacks` with `k = 5 - i` iterations
left; `n` is the next buffer size, `trace` the buffer of the previous
iteration, `sizes` the buffer sizes passed to `runtime.Stack` so far. -/
def stacksLoop (full : List Char) : Nat → Nat → List Char → List Nat → List Char × List Nat
  | 0, _, trace, sizes => (trace, sizes)
  | k + 1, n, _, sizes =>
    let (trace, nbytes) := runtimeStack full (List.replicate n (Char.ofNat 0))
    if nbytes < trace.length then
      (trace.take nbytes, sizes ++ [n])
    else
      stacksLoop full k (n * 2) trace (sizes ++ [n])

/-- Go: `func stacks(all bool) []byte`, with `full` the text of the trace
(`stacks` itself is a reserved word of the library, hence the name).
Returns the byte slice and the sizes of the buffers handed to `runtime.Stack`. -/
def stacksFn (all : Bool) (full : List Char) : List Char × List Nat :=
  let n := if all then 100000 else 10000
  stacksLoop full 5 n [] []

/-! ## Output router and fatal sequence (lines 50-55, 153-201) -/

/-- Go: `func Flush()`. -/
def Flush : List Event := [Event.sync Stream.Stdout, Event.sync Stream.Stderr]

/-- Go: `func timeoutFlush(timeout time.Duration)` called with ten seconds:
either the flush completes first, or the timer fires and the diagnostic is
printed (the abandoned flush is then not observed). -/
def timeoutFlush (rt : Runtime) : List Event :=
  if rt.flushInTime then Flush
  else [Event.write Stream.Stderr "glog: Flush took longer than 10s\n"]

/-- Lines 155-162 of `output`: the destination variable `out` after the two
`if` statements (`none` is Go's `nil`). -/
def selectOut (s dl el ol : severity) : Option Stream :=
  let out : Option Stream := none
  let out := if s ≤ dl ∧ s ≤ el then some Stream.Stderr else out
  let out := if s > dl ∧ s ≤ ol then some Stream.Stdout else out
  out

/-- Go: `func (l *loggingT) output(s severity, header, body string, enter bool)`. -/
def loggingT.output (l : loggingT) (rt : Runtime) (s : severity) (header body : String)
    (enter : Bool) : List Event × Outcome :=
  let dl := l.getDiffLevel
  let el := l.getErrLevel
  let ol := l.getOutLevel
  match selectOut s dl el ol with
  | none => ([], Outcome.returned)
  | some out =>
    let evs := [Event.lock, Event.write out (header ++ body)]
    let evs := if enter then evs ++ [Event.write out "\n"] else evs
    if s = FATAL then
      let evs := evs ++ [Event.write Stream.Stderr (String.mk (stacksFn false (rt.stackTrace false).data).1)]
      let evs := evs ++ [Event.unlock]
      let evs := evs ++ timeoutFlush rt
      (evs, Outcome.exited 255)
    else
      (evs ++ [Event.unlock], Outcome.returned)

/-! ## Emission paths (lines 134-150) -/

/-- Go: `func (l *loggingT) println(s severity, args ...interface{})`; `args`
is the space-separated rendering of the arguments, which `fmt.Sprintln` ends
with a newline. -/
def loggingT.println (l : loggingT) (rt : Runtime) (s : severity) (args : String) :
    List Event × Outcome :=
  match header rt s with
  | none => ([], Outcome.panicked)
  | some header =>
    let body := args ++ "\n"
    l.output rt s header body false

/-- Go: `func (l *loggingT) print(s severity, args ...interface{})`; `body` is
the result of `fmt.Sprint(args...)`. -/
def loggingT.print (l : loggingT) (rt : Runtime) (s : severity) (body : String) :
    List Event × Outcome :=
  match header rt s with
  | none => ([], Outcome.panicked)
  | some header => l.output rt s header body true

/-- Go: `func (l *loggingT) printf(s severity, format string, args ...interface{})`;
`body` is the result of `fmt.Sprintf(format, args...)`. -/
def loggingT.printf (l : loggingT) (rt : Runtime) (s : severity) (body : String) :
    List Event × Outcome :=
  match header rt s with
  | none => ([], Outcome.panicked)
  | some header => l.output rt s header body true

/-! ## Public emission API (lines 234-312) -/

/-- The 24 exported emission functions. -/
inductive Emitter where
  | Fatal | Fatalf | Fatalln
  | Crit | Critf | Critln
  | Error | Errorf | Errorln
  | Warn | Warnf | Warnln
  | Notice | Noticef | Noticeln
  | Info | Infof | Infoln
  | Verbose | Verbosef | Verboseln
  | Debug | Debugf | Debugln
deriving DecidableEq, Repr

/-- The body of each exported emission function, on the global `logging`;
`text` is the rendering of its arguments. -/
def Emitter.call (e : Emitter) (logging : loggingT) (rt : Runtime) (text : String) :
    List Event × Outcome :=
  match e with
  | Emitter.Fatal => logging.print rt FATAL text
  | Emitter.Fatalf => logging.printf rt FATAL text
  | Emitter.Fatalln => logging.println rt FATAL text
  | Emitter.Crit => logging.print rt CRIT text
  | Emitter.Critf => logging.printf rt CRIT text
  | Emitter.Critln => logging.println rt CRIT text
  | Emitter.Error => logging.print rt ERROR text
  | Emitter.Errorf => logging.printf rt ERROR text
  | Emitter.Errorln => logging.println rt ERROR text
  | Emitter.Warn => logging.print rt WARN text
  | Emitter.Warnf => logging.printf rt WARN text
  | Emitter.Warnln => logging.println rt WARN text
  | Emitter.Notice => logging.print rt NOTICE text
  | Emitter.Noticef => logging.printf rt NOTICE text
  | Emitter.Noticeln => logging.println rt NOTICE text
  | Emitter.Info => logging.print rt INFO text
  | Emitter.Infof => logging.printf rt INFO text
  | Emitter.Infoln => logging.println rt INFO text
  | Emitter.Verbose => logging.print rt VERBOSE text
  | Emitter.Verbosef => logging.printf rt VERBOSE text
  | Emitter.Verboseln => logging.println rt VERBOSE text
  | Emitter.Debug => logging.print rt DEBUG text
  | Emitter.Debugf => logging.printf rt DEBUG text
  | Emitter.Debugln => logging.println rt DEBUG text

/-! ## Vocabulary of the specification -/

/-- Specification, section 4.4: the three-way rule, if / else-if / else. -/
def routeSpec (s dl el ol : severity) : Option Stream :=
  if s ≤ dl ∧ s ≤ el then some Stream.Stderr
  else if s > dl ∧ s ≤ ol then some Stream.Stdout
  else none

/-- The text a list of events puts on one stream, in order. -/
def written (out : Stream) : List Event → String
  | [] => ""
  | Event.write o data :: evs => if o = out then data ++ written out evs else written out evs
  | _ :: evs => written out evs

/-- The events of writing one record to `out`: header and body in one write,
then the newline when `enter` is set. -/
def recordEvents (out : Stream) (header body : String) (enter : Bool) : List Event :=
  [Event.lock, Event.write out (header ++ body)] ++
    (if enter then [Event.write out "\n"] else [])

/-- The events of the fatal sequence after the record: the stack trace of the
current goroutine on standard error, the unlock, the bounded flush. -/
def fatalEvents (rt : Runtime) : List Event :=
  [Event.write Stream.Stderr (String.mk (stacksFn false (rt.stackTrace false).data).1),
    Event.unlock] ++ timeoutFlush rt

/-- The three emission paths of `loggingT`. -/
inductive Style where
  | print
  | printf
  | println
deriving DecidableEq, Repr

/-- The emission path an exported function is named after. -/
def Emitter.style : Emitter → Style
  | Fatal | Crit | Error | Warn | Notice | Info | Verbose | Debug => Style.print
  | Fatalf | Critf | Errorf | Warnf | Noticef | Infof | Verbosef | Debugf => Style.printf
  | Fatalln | Critln | Errorln | Warnln | Noticeln | Infoln | Verboseln | Debugln =>
    Style.println

/-- The level an exported function is named after. -/
def Emitter.severity : Emitter → severity
  | Fatal | Fatalf | Fatalln => FATAL
  | Crit | Critf | Critln => CRIT
  | Error | Errorf | Errorln => ERROR
  | Warn | Warnf | Warnln => WARN
  | Notice | Noticef | Noticeln => NOTICE
  | Info | Infof | Infoln => INFO
  | Verbose | Verbosef | Verboseln => VERBOSE
  | Debug | Debugf | Debugln => DEBUG

/-- The call of one emission path of `loggingT`. -/
def Style.run (st : Style) (l : loggingT) (rt : Runtime) (s : severity) (text : String) :
    List Event × Outcome :=
  match st with
  | Style.print => l.print rt s text
  | Style.printf => l.printf rt s text
  | Style.println => l.println rt s text

/-- A runtime for concrete evaluations: May 3, 14:05:09, a call from line 42 of
`/a/b/server.go`, a short stack trace, a flush that completes. -/
def sampleRuntime : Runtime :=
  { now := ⟨5, 3, 14, 5, 9⟩
    caller := ⟨"/a/b/server.go", 42, true⟩
    stackTrace := fun _ => "goroutine 1 [running]:\n"
    flushInTime := true }

/-- Specification, section 4.1: the single-character code of each level. -/
def levelChar (s : severity) : Char :=
  if s = FATAL then 'F' else if s = CRIT then 'C' else if s = ERROR then 'E'
  else if s = WARN then 'W' else if s = NOTICE then 'N' else if s = INFO then 'I'
  else if s = VERBOSE then 'V' else if s = DEBUG then 'D' else ' '

/-- Specification, section 4.2: a time field zero-padded to 2 digits, that is
the tens digit followed by the units digit. -/
def twoDigits (n : Int) : String :=
  String.mk [Char.ofNat (48 + n.toNat / 10), Char.ofNat (48 + n.toNat % 10)]

/-- Specification, section 4.2: the decimal numeral of a line number. -/
def decimal (n : Int) : String := Nat.repr n.toNat

/-- Specification, section 4.2: the final path segment, the longest suffix of
the path without a separator. -/
def basename (file : String) : String :=
  String.mk (file.data.rtakeWhile (fun c => c != '/'))

/-- A wall-clock reading: month 1-12, day 1-31, hour 0-23, minute and second 0-59. -/
def wallClock (t : Time) : Prop :=
  (1 ≤ t.month ∧ t.month ≤ 12) ∧ (1 ≤ t.day ∧ t.day ≤ 31) ∧ (0 ≤ t.hour ∧ t.hour ≤ 23) ∧
    (0 ≤ t.minute ∧ t.minute ≤ 59) ∧ (0 ≤ t.second ∧ t.second ≤ 59)

instance (t : Time) : Decidable (wallClock t) := by
  unfold wallClock
  infer_instance

/-! ## Output router -/

theorem selectOut_eq_routeSpec (s dl el ol : severity) :
    selectOut s dl el ol = routeSpec s dl el ol := by
  unfold selectOut routeSpec
  by_cases h1 : s ≤ dl ∧ s ≤ el
  · have h2 : ¬ (s > dl ∧ s ≤ ol) := fun h => absurd h1.1 (not_le.mpr h.1)
    simp [h1, h2]
  · simp [h1]

theorem output_of_none (l : loggingT) (rt : Runtime) (s : severity) (header body : String)
    (enter : Bool) (h : selectOut s l.getDiffLevel l.getErrLevel l.getOutLevel = none) :
    l.output rt s header body enter = ([], Outcome.returned) := by
  simp [loggingT.output, h]

theorem output_of_some (l : loggingT) (rt : Runtime) (s : severity) (header body : String)
    (enter : Bool) (out : Stream)
    (h : selectOut s l.getDiffLevel l.getErrLevel l.getOutLevel = some out) :
    l.output rt s header body enter =
      if s = FATAL then (recordEvents out header body enter ++ fatalEvents rt, Outcome.exited 255)
      else (recordEvents out header body enter ++ [Event.unlock], Outcome.returned) := by
  unfold loggingT.output
  simp only [h]
  cases enter <;> by_cases hs : s = FATAL <;> simp [hs, recordEvents, fatalEvents]

/-- C1: the destination left in `out` by the two independent `if` statements of
`output` is the one of the three-way rule (standard error if `s <= dl` and
`s <= el`, else standard output if `s > dl` and `s <= ol`, else none), for all
integers; when the rule selects nothing `output` does nothing and returns, and
when it selects a stream the record is written to that stream. -/
theorem C1_output_destination_three_way (s dl el ol : severity) (rt : Runtime)
    (header body : String) (enter : Bool) :
    selectOut s dl el ol = routeSpec s dl el ol ∧
    (routeSpec s dl el ol = none →
      (loggingT.mk dl el ol).output rt s header body enter = ([], Outcome.returned)) ∧
    (∀ out, routeSpec s dl el ol = some out →
      ∃ rest, ((loggingT.mk dl el ol).output rt s header body enter).1
        = recordEvents out header body enter ++ rest) := by
  refine ⟨selectOut_eq_routeSpec s dl el ol, ?_, ?_⟩
  · intro h
    exact output_of_none _ rt s header body enter (by
      simpa [loggingT.getDiffLevel, loggingT.getErrLevel, loggingT.getOutLevel,
        selectOut_eq_routeSpec] using h)
  · intro out h
    have h2 := output_of_some (loggingT.mk dl el ol) rt s header body enter out (by
      simpa [loggingT.getDiffLevel, loggingT.getErrLevel, loggingT.getOutLevel,
        selectOut_eq_routeSpec] using h)
    by_cases hs : s = FATAL
    · exact ⟨fatalEvents rt, by rw [h2]; simp [hs]⟩
    · exact ⟨[Event.unlock], by rw [h2]; simp [hs]⟩

/-- C7: the drop gap. When `s <= dl` and `s > el`, `output` selects no
destination, produces no event at all (nothing on either stream) and returns,
whatever `ol` is. -/
theorem C7_drop_gap (s dl el ol : severity) (rt : Runtime) (header body : String)
    (enter : Bool) (h1 : s ≤ dl) (h2 : s > el) :
    selectOut s dl el ol = none ∧
    (loggingT.mk dl el ol).output rt s header body enter = ([], Outcome.returned) := by
  have h : selectOut s dl el ol = none := by
    have a : ¬ (s ≤ dl ∧ s ≤ el) := fun h => absurd h.2 (not_le.mpr h2)
    have b : ¬ (s > dl ∧ s ≤ ol) := fun h => absurd h1 (not_le.mpr h.1)
    simp [selectOut, a, b]
  exact ⟨h, output_of_none _ rt s header body enter h⟩

/-- C7 at WARN under `dl = WARN`, `el = ERROR`, with `ol = DEBUG` (so `s <= ol`). -/
theorem C7_drop_gap_witness :
    (WARN ≤ WARN ∧ WARN > ERROR ∧ WARN ≤ DEBUG) ∧
    selectOut WARN WARN ERROR DEBUG = none ∧
    (loggingT.mk WARN ERROR DEBUG).output
        ⟨⟨5, 3, 14, 5, 9⟩, ⟨"/a/b/server.go", 42, true⟩, fun _ => "", true⟩
        WARN "W0503 14:05:09 server.go:42] " "x" true = ([], Outcome.returned) :=
  ⟨by decide, C7_drop_gap WARN WARN ERROR DEBUG _ _ _ _ (by decide) (by decide)⟩

/-- C10: under the thresholds installed by `init` (diff = WARN, err = ERROR,
out = INFO) FATAL, CRIT and ERROR are written to standard error, WARN is
dropped, NOTICE and INFO are written to standard output, VERBOSE and DEBUG are
dropped. -/
theorem C10_default_routing (rt : Runtime) (header body : String) (enter : Bool) :
    (init.getDiffLevel = WARN ∧ init.getErrLevel = ERROR ∧ init.getOutLevel = INFO) ∧
    init.output rt FATAL header body enter
      = (recordEvents Stream.Stderr header body enter ++ fatalEvents rt, Outcome.exited 255) ∧
    init.output rt CRIT header body enter
      = (recordEvents Stream.Stderr header body enter ++ [Event.unlock], Outcome.returned) ∧
    init.output rt ERROR header body enter
      = (recordEvents Stream.Stderr header body enter ++ [Event.unlock], Outcome.returned) ∧
    init.output rt WARN header body enter = ([], Outcome.returned) ∧
    init.output rt NOTICE header body enter
      = (recordEvents Stream.Stdout header body enter ++ [Event.unlock], Outcome.returned) ∧
    init.output rt INFO header body enter
      = (recordEvents Stream.Stdout header body enter ++ [Event.unlock], Outcome.returned) ∧
    init.output rt VERBOSE header body enter = ([], Outcome.returned) ∧
    init.output rt DEBUG header body enter = ([], Outcome.returned) := by
  refine ⟨⟨rfl, rfl, rfl⟩, ?_, ?_, ?_, ?_, ?_, ?_, ?_, ?_⟩
  · rw [output_of_some init rt FATAL header body enter Stream.Stderr (by decide)]
    simp
  · rw [output_of_some init rt CRIT header body enter Stream.Stderr (by decide)]
    rw [if_neg (by decide)]
  · rw [output_of_some init rt ERROR header body enter Stream.Stderr (by decide)]
    rw [if_neg (by decide)]
  · exact output_of_none init rt WARN header body enter (by decide)
  · rw [output_of_some init rt NOTICE header body enter Stream.Stdout (by decide)]
    rw [if_neg (by decide)]
  · rw [output_of_some init rt INFO header body enter Stream.Stdout (by decide)]
    rw [if_neg (by decide)]
  · exact output_of_none init rt VERBOSE header body enter (by decide)
  · exact output_of_none init rt DEBUG header body enter (by decide)

/-! ## Threshold state -/

/-- C6: each setter replaces its own threshold by the value given, whatever
that value is, and leaves the other two as they were; the matching getter then
returns the value and the other two getters return their prior values. -/
theorem C6_setters_replace_one_threshold (l : loggingT) (X : severity) :
    (SetOutLevel l X = { l with outlevel := X } ∧
      (SetOutLevel l X).getOutLevel = X ∧
      (SetOutLevel l X).getDiffLevel = l.getDiffLevel ∧
      (SetOutLevel l X).getErrLevel = l.getErrLevel) ∧
    (SetDiffLevel l X = { l with difflevel := X } ∧
      (SetDiffLevel l X).getDiffLevel = X ∧
      (SetDiffLevel l X).getErrLevel = l.getErrLevel ∧
      (SetDiffLevel l X).getOutLevel = l.getOutLevel) ∧
    (SetErrLevel l X = { l with errlevel := X } ∧
      (SetErrLevel l X).getErrLevel = X ∧
      (SetErrLevel l X).getDiffLevel = l.getDiffLevel ∧
      (SetErrLevel l X).getOutLevel = l.getOutLevel) :=
  ⟨⟨rfl, rfl, rfl, rfl⟩, ⟨rfl, rfl, rfl, rfl⟩, ⟨rfl, rfl, rfl, rfl⟩⟩

/-! ## Trailing newline of print and printf -/

/-- C2 refuted at the body `"a\n"`: NOTICE under the initial thresholds goes to
standard output, and both `print` and `printf` put the header, the body and a
second newline there, not the header and the body alone. -/
theorem C2_counterexample_body_ending_in_newline :
    header sampleRuntime NOTICE = some "N0503 14:05:09 server.go:42] " ∧
    written Stream.Stdout (init.print sampleRuntime NOTICE "a\n").1
      = "N0503 14:05:09 server.go:42] " ++ "a\n" ++ "\n" ∧
    written Stream.Stdout (init.print sampleRuntime NOTICE "a\n").1
      ≠ "N0503 14:05:09 server.go:42] " ++ "a\n" ∧
    written Stream.Stdout (init.printf sampleRuntime NOTICE "a\n").1
      = "N0503 14:05:09 server.go:42] " ++ "a\n" ++ "\n" ∧
    written Stream.Stdout (init.printf sampleRuntime NOTICE "a\n").1
      ≠ "N0503 14:05:09 server.go:42] " ++ "a\n" := by
  decide

/-- C2, amended: a `print` or `printf` emission that is routed to a stream
always appends a newline after the body, whether or not the body already ends
with one: the events are the write of header and body, the write of a newline,
then the unlock (or the fatal sequence for FATAL), so the text of the record is
header ++ body ++ "\n". -/
theorem C2_print_always_appends_newline (l : loggingT) (rt : Runtime) (s : severity)
    (body h : String) (out : Stream) (hh : header rt s = some h)
    (hout : selectOut s l.getDiffLevel l.getErrLevel l.getOutLevel = some out) :
    (l.print rt s body).1
      = [Event.lock, Event.write out (h ++ body), Event.write out "\n"] ++
          (if s = FATAL then fatalEvents rt else [Event.unlock]) ∧
    (l.printf rt s body).1
      = [Event.lock, Event.write out (h ++ body), Event.write out "\n"] ++
          (if s = FATAL then fatalEvents rt else [Event.unlock]) ∧
    written out [Event.lock, Event.write out (h ++ body), Event.write out "\n"]
      = h ++ body ++ "\n" := by
  refine ⟨?_, ?_, ?_⟩
  · simp only [loggingT.print, hh]
    rw [output_of_some l rt s h body true out hout]
    by_cases hs : s = FATAL <;> simp [hs, recordEvents]
  · simp only [loggingT.printf, hh]
    rw [output_of_some l rt s h body true out hout]
    by_cases hs : s = FATAL <;> simp [hs, recordEvents]
  · simp [written, String.append_assoc]

/-- C2 amended, at INFO under the initial thresholds with the body `"a\n"`. -/
theorem C2_print_always_appends_newline_witness :
    (header sampleRuntime INFO = some "I0503 14:05:09 server.go:42] " ∧
      selectOut INFO init.getDiffLevel init.getErrLevel init.getOutLevel
        = some Stream.Stdout) ∧
    (init.print sampleRuntime INFO "a\n").1
      = [Event.lock, Event.write Stream.Stdout ("I0503 14:05:09 server.go:42] " ++ "a\n"),
          Event.write Stream.Stdout "\n"] ++
          (if INFO = FATAL then fatalEvents sampleRuntime else [Event.unlock]) :=
  ⟨by decide,
    (C2_print_always_appends_newline init sampleRuntime INFO "a\n"
      "I0503 14:05:09 server.go:42] " Stream.Stdout (by decide) (by decide)).1⟩

/-! ## Severities of the public API -/

theorem header_of_char (rt : Runtime) (s : severity) (c : Char)
    (h : severityCharAt s = some c) :
    ∃ rest, header rt s = some (String.singleton c ++ rest) := by
  unfold header
  rw [h]
  simp only [String.append_assoc]
  exact ⟨_, rfl⟩

theorem output_not_panicked (l : loggingT) (rt : Runtime) (s : severity)
    (header body : String) (enter : Bool) :
    (l.output rt s header body enter).2 ≠ Outcome.panicked := by
  cases h : selectOut s l.getDiffLevel l.getErrLevel l.getOutLevel with
  | none => simp [output_of_none l rt s header body enter h]
  | some out =>
    rw [output_of_some l rt s header body enter out h]
    by_cases hs : s = FATAL <;> simp [hs]

/-- C8: each of the 24 exported emission functions hands `header` and `output`
the severity of its level, which lies in FATAL..DEBUG (not NONE, below
numSeverity): the call is `output` on that severity with the header that
`header` built for that same severity, and it does not panic. For every such
severity the lookup in the 9-character table `severityChar` succeeds and gives
'F', 'C', 'E', 'W', 'N', 'I', 'V', 'D' respectively, pairwise distinct and
different from the blank that stands at NONE; that character opens the header. -/
theorem C8_public_severities_in_table :
    (∀ (e : Emitter) (logging : loggingT) (rt : Runtime) (text : String),
      e.call logging rt text = e.style.run logging rt e.severity text) ∧
    (∀ e : Emitter, FATAL ≤ e.severity ∧ e.severity ≤ DEBUG ∧ e.severity ≠ NONE ∧
      e.severity < numSeverity) ∧
    severityChar.length = 9 ∧
    (∀ s : severity, FATAL ≤ s → s ≤ DEBUG →
      ∃ c, severityCharAt s = some c ∧ c ≠ ' ' ∧ severityCharAt NONE = some ' ') ∧
    (severityCharAt FATAL = some 'F' ∧ severityCharAt CRIT = some 'C' ∧
      severityCharAt ERROR = some 'E' ∧ severityCharAt WARN = some 'W' ∧
      severityCharAt NOTICE = some 'N' ∧ severityCharAt INFO = some 'I' ∧
      severityCharAt VERBOSE = some 'V' ∧ severityCharAt DEBUG = some 'D') ∧
    (∀ s t : severity, FATAL ≤ s → s ≤ DEBUG → FATAL ≤ t → t ≤ DEBUG →
      severityCharAt s = severityCharAt t → s = t) ∧
    (∀ (e : Emitter) (rt : Runtime), (header rt e.severity).isSome = true) ∧
    (∀ (e : Emitter) (logging : loggingT) (rt : Runtime) (text : String),
      ∃ c rest, severityCharAt e.severity = some c ∧ c ≠ ' ' ∧
        header rt e.severity = some (String.singleton c ++ rest) ∧
        e.call logging rt text
          = logging.output rt e.severity (String.singleton c ++ rest)
              (if e.style = Style.println then text ++ "\n" else text)
              (if e.style = Style.println then false else true) ∧
        (e.call logging rt text).2 ≠ Outcome.panicked) := by
  refine ⟨?_, ?_, by decide, ?_, by decide, ?_, ?_, ?_⟩
  · intro e logging rt text
    cases e <;> rfl
  · intro e
    cases e <;> decide
  · intro s h1 h2
    simp only [FATAL, DEBUG] at h1 h2
    interval_cases s <;> decide
  · intro s t h1 h2 h3 h4
    simp only [FATAL, DEBUG] at h1 h2 h3 h4
    interval_cases s <;> interval_cases t <;> decide
  · intro e rt
    have h : (severityCharAt e.severity).isSome = true := by cases e <;> decide
    obtain ⟨c, hc⟩ := Option.isSome_iff_exists.mp h
    unfold header
    rw [hc]
    rfl
  · intro e logging rt text
    have h : severityCharAt e.severity = some (levelChar e.severity) ∧
        levelChar e.severity ≠ ' ' := by
      cases e <;> decide
    generalize levelChar e.severity = c at h
    obtain ⟨hc, hblank⟩ := h
    obtain ⟨rest, hrest⟩ := header_of_char rt e.severity c hc
    have hcall : e.call logging rt text
        = logging.output rt e.severity (String.singleton c ++ rest)
            (if e.style = Style.println then text ++ "\n" else text)
            (if e.style = Style.println then false else true) := by
      cases e <;>
        simp only [Emitter.call, Emitter.severity, Emitter.style, loggingT.print,
          loggingT.printf, loggingT.println] <;>
        simp only [Emitter.severity] at hrest <;>
        rw [hrest] <;> simp
    refine ⟨c, rest, hc, hblank, hrest, hcall, ?_⟩
    rw [hcall]
    exact output_not_panicked _ _ _ _ _ _

/-! ## Header formatter -/

theorem fmtInt_two_digits (n : Int) (h0 : 0 ≤ n) (h1 : n < 100) : fmtInt 2 n = twoDigits n := by
  interval_cases n <;> rfl

theorem fmtInt_decimal (n : Int) (h0 : 0 ≤ n) : fmtInt 0 n = decimal n := by
  have hn : ¬ n < 0 := not_lt.mpr h0
  simp only [fmtInt, hn, if_false, padZeros, decimal]
  have : n.natAbs = n.toNat := by omega
  rw [this]
  apply String.ext
  simp

theorem LastIndex_spec (c : Char) (l : List Char) :
    (LastIndex l c = -1 ∧ c ∉ l) ∨
    (∃ pre suf, l = pre ++ c :: suf ∧ c ∉ suf ∧ LastIndex l c = (pre.length : Int)) := by
  induction l with
  | nil => exact Or.inl ⟨rfl, by simp⟩
  | cons x xs ih =>
    rcases ih with ⟨hr, hmem⟩ | ⟨pre, suf, hl, hsuf, hr⟩
    · by_cases hx : x = c
      · refine Or.inr ⟨[], xs, by simp [hx], hmem, ?_⟩
        simp [LastIndex, hr, hx]
      · refine Or.inl ⟨?_, ?_⟩
        · simp [LastIndex, hr, hx]
        · simp [hmem, Ne.symm hx]
    · refine Or.inr ⟨x :: pre, suf, by simp [hl], hsuf, ?_⟩
      have : (0 : Int) ≤ (pre.length : Int) := Int.natCast_nonneg _
      simp [LastIndex, hr, this]

theorem rtakeWhile_after_last (c : Char) (pre suf : List Char) (h : c ∉ suf) :
    (pre ++ c :: suf).rtakeWhile (fun x => x != c) = suf := by
  induction suf using List.reverseRecOn with
  | nil =>
    have : pre ++ [c] = pre ++ [c] := rfl
    rw [List.rtakeWhile_concat_neg]
    simp
  | append_singleton ys y ih =>
    have hy : y ≠ c := fun e => h (by simp [e])
    have hys : c ∉ ys := fun e => h (by simp [e])
    have : pre ++ c :: (ys ++ [y]) = (pre ++ c :: ys) ++ [y] := by simp
    rw [this, List.rtakeWhile_concat_pos _ _ _ (by simpa using hy), ih hys]

theorem basename_of_no_slash (file : String) (h : '/' ∉ file.data) : basename file = file := by
  apply String.ext
  simp only [basename]
  rw [List.rtakeWhile_eq_self_iff]
  intro x hx
  have : x ≠ '/' := fun e => h (e ▸ hx)
  simpa using this

theorem basename_of_split (file : String) (pre suf : List Char)
    (h : file.data = pre ++ '/' :: suf) (hsuf : '/' ∉ suf) : basename file = String.mk suf := by
  apply String.ext
  simp only [basename, h]
  exact rtakeWhile_after_last '/' pre suf hsuf

/-- The file segment computed by `header` when the caller is resolved is the
final path segment. -/
theorem header_file_eq_basename (file : String) :
    (if LastIndex file.data '/' ≥ 0 then
        String.mk (file.data.drop (LastIndex file.data '/' + 1).toNat)
      else file) = basename file := by
  rcases LastIndex_spec '/' file.data with ⟨hr, hmem⟩ | ⟨pre, suf, hl, hsuf, hr⟩
  · rw [hr, if_neg (by decide), basename_of_no_slash file hmem]
  · have h0 : (pre.length : Int) ≥ 0 := Int.natCast_nonneg _
    rw [hr, if_pos h0, basename_of_split file pre suf hl hsuf]
    have : ((pre.length : Int) + 1).toNat = pre.length + 1 := by omega
    rw [this, hl]
    simp

theorem basename_no_slash (file : String) : '/' ∉ (basename file).data := by
  intro h
  have := List.mem_rtakeWhile_imp h
  simp at this

theorem basename_split (file : String) :
    ('/' ∉ file.data ∧ basename file = file) ∨ ∃ pre, file = pre ++ "/" ++ basename file := by
  rcases LastIndex_spec '/' file.data with ⟨_, hmem⟩ | ⟨pre, suf, hl, hsuf, _⟩
  · exact Or.inl ⟨hmem, basename_of_no_slash file hmem⟩
  · refine Or.inr ⟨String.mk pre, ?_⟩
    rw [basename_of_split file pre suf hl hsuf]
    apply String.ext
    simp [hl]

theorem severityCharAt_isSome (s : severity) (h1 : NONE ≤ s) (h2 : s < numSeverity) :
    (severityCharAt s).isSome = true := by
  simp only [NONE, numSeverity] at h1 h2
  interval_cases s <;> decide

theorem severityCharAt_eq_levelChar (s : severity) (h1 : FATAL ≤ s) (h2 : s ≤ DEBUG) :
    severityCharAt s = some (levelChar s) := by
  simp only [FATAL, DEBUG] at h1 h2
  interval_cases s <;> decide


/-- C4: for a severity in FATAL..DEBUG, a wall-clock time and a resolved caller
location, `header` returns the level character, month and day on two digits, a
blank, hour, minute and second on two digits separated by colons, a blank, the
final segment of the file path, a colon, the decimal line number with negative
values replaced by 0, and `"] "`.  The final segment holds no `/`; it is the
whole path when the path holds no `/`, and otherwise the path is some prefix,
a `/` and the segment. -/
theorem C4_header_format (rt : Runtime) (s : severity) (hs : FATAL ≤ s ∧ s ≤ DEBUG)
    (hclock : wallClock rt.now) (hok : rt.caller.ok = true) :
    header rt s = some (String.singleton (levelChar s) ++ twoDigits rt.now.month
      ++ twoDigits rt.now.day ++ " " ++ twoDigits rt.now.hour ++ ":"
      ++ twoDigits rt.now.minute ++ ":" ++ twoDigits rt.now.second ++ " "
      ++ basename rt.caller.file ++ ":" ++ decimal (max rt.caller.line 0) ++ "] ") ∧
    '/' ∉ (basename rt.caller.file).data ∧
    (('/' ∉ rt.caller.file.data ∧ basename rt.caller.file = rt.caller.file) ∨
      ∃ pre, rt.caller.file = pre ++ "/" ++ basename rt.caller.file) := by
  refine ⟨?_, basename_no_slash _, basename_split _⟩
  obtain ⟨⟨m1, m2⟩, ⟨d1, d2⟩, ⟨h1, h2⟩, ⟨n1, n2⟩, ⟨s1, s2⟩⟩ := hclock
  have hline : fmtInt 0 (if rt.caller.line < 0 then 0 else rt.caller.line)
      = decimal (max rt.caller.line 0) := by
    by_cases hl : rt.caller.line < 0
    · rw [if_pos hl, max_eq_right (le_of_lt hl)]
      exact fmtInt_decimal 0 (le_refl _)
    · rw [if_neg hl, max_eq_left (not_lt.mp hl)]
      exact fmtInt_decimal _ (not_lt.mp hl)
  have hfile := header_file_eq_basename rt.caller.file
  unfold header
  simp only [hok, Bool.not_true, Bool.false_eq_true, if_false]
  rw [severityCharAt_eq_levelChar s hs.1 hs.2]
  have hpair : (if LastIndex rt.caller.file.data '/' ≥ 0 then
        (String.mk (rt.caller.file.data.drop (LastIndex rt.caller.file.data '/' + 1).toNat),
          rt.caller.line)
      else (rt.caller.file, rt.caller.line)) = (basename rt.caller.file, rt.caller.line) := by
    rw [← hfile]
    split <;> rfl
  simp only [hpair, hline]
  rw [fmtInt_two_digits _ (by omega) (by omega), fmtInt_two_digits _ (by omega) (by omega),
    fmtInt_two_digits _ (by omega) (by omega), fmtInt_two_digits _ (by omega) (by omega),
    fmtInt_two_digits _ (by omega) (by omega)]

/-- C4 at the example of the specification: WARN, May 3, 14:05:09, line 42 of
`/a/b/server.go` gives `W0503 14:05:09 server.go:42] `. -/
theorem C4_header_format_witness :
    ((FATAL ≤ WARN ∧ WARN ≤ DEBUG) ∧ wallClock sampleRuntime.now ∧
      sampleRuntime.caller.ok = true) ∧
    header sampleRuntime WARN = some "W0503 14:05:09 server.go:42] " :=
  ⟨by decide,
    (C4_header_format sampleRuntime WARN (by decide) (by decide) (by decide)).1.trans
      (by decide)⟩

/-- C5: when the caller location is not resolved, whatever file and line came
with the failure, `header` formats the file segment `???` and the line `1`, so
the header ends with `" ???:1] "`; it fails for no severity for which it
succeeds on a resolved location, and succeeds for every severity of the table. -/
theorem C5_header_unresolved_caller (rt : Runtime) (s : severity)
    (hok : rt.caller.ok = false) :
    header rt s = (severityCharAt s).map (fun c =>
      String.singleton c ++ fmtInt 2 rt.now.month ++ fmtInt 2 rt.now.day ++ " "
        ++ fmtInt 2 rt.now.hour ++ ":" ++ fmtInt 2 rt.now.minute ++ ":"
        ++ fmtInt 2 rt.now.second ++ " " ++ "???" ++ ":" ++ "1" ++ "] ") ∧
    (∀ h, header rt s = some h → ∃ pre, h = pre ++ " ???:1] ") ∧
    (NONE ≤ s ∧ s < numSeverity → ∃ h, header rt s = some h) ∧
    (∀ file line, (header rt s).isSome
      = (header { rt with caller := ⟨file, line, true⟩ } s).isSome) := by
  have key : header rt s = (severityCharAt s).map (fun c =>
      String.singleton c ++ fmtInt 2 rt.now.month ++ fmtInt 2 rt.now.day ++ " "
        ++ fmtInt 2 rt.now.hour ++ ":" ++ fmtInt 2 rt.now.minute ++ ":"
        ++ fmtInt 2 rt.now.second ++ " " ++ "???" ++ ":" ++ "1" ++ "] ") := by
    unfold header
    simp only [hok, Bool.not_false, if_true]
    cases severityCharAt s <;> rfl
  refine ⟨key, ?_, ?_, ?_⟩
  · intro h hh
    rw [key] at hh
    cases hc : severityCharAt s with
    | none => simp [hc] at hh
    | some c =>
      simp only [hc, Option.map_some', Option.some.injEq] at hh
      refine ⟨String.singleton c ++ fmtInt 2 rt.now.month ++ fmtInt 2 rt.now.day ++ " "
        ++ fmtInt 2 rt.now.hour ++ ":" ++ fmtInt 2 rt.now.minute ++ ":"
        ++ fmtInt 2 rt.now.second, ?_⟩
      rw [← hh]
      apply String.ext
      simp
  · rintro ⟨h1, h2⟩
    rw [key]
    obtain ⟨c, hc⟩ := Option.isSome_iff_exists.mp (severityCharAt_isSome s h1 h2)
    exact ⟨_, by rw [hc]; rfl⟩
  · intro file line
    rw [key]
    unfold header
    cases severityCharAt s <;> rfl


/-- C5 with a failed resolution that still carries a path and a negative line. -/
theorem C5_header_unresolved_caller_witness :
    (Caller.mk "/a/b/server.go" (-7) false).ok = false ∧
    header ⟨⟨5, 3, 14, 5, 9⟩, ⟨"/a/b/server.go", -7, false⟩, fun _ => "", true⟩ WARN
      = some "W0503 14:05:09 ???:1] " :=
  ⟨rfl,
    (C5_header_unresolved_caller
      ⟨⟨5, 3, 14, 5, 9⟩, ⟨"/a/b/server.go", -7, false⟩, fun _ => "", true⟩ WARN rfl).1.trans
      (by decide)⟩

/-! ## Stack capture -/

theorem runtimeStack_fits (full : List Char) (n : Nat) (z : Char) (h : full.length < n) :
    runtimeStack full (List.replicate n z)
      = (full ++ List.replicate (n - full.length) z, full.length) := by
  simp [runtimeStack, Nat.min_eq_left (le_of_lt h)]

theorem runtimeStack_overflows (full : List Char) (n : Nat) (z : Char) (h : n ≤ full.length) :
    runtimeStack full (List.replicate n z) = (full.take n, n) := by
  simp [runtimeStack, Nat.min_eq_right h]

theorem stacksLoop_fits (full : List Char) (k n : Nat) (prev : List Char) (sizes : List Nat)
    (h : full.length < n) :
    stacksLoop full (k + 1) n prev sizes = (full, sizes ++ [n]) := by
  simp only [stacksLoop, runtimeStack_fits full n _ h]
  have : full.length < (full ++ List.replicate (n - full.length) (Char.ofNat 0)).length := by
    simp only [List.length_append, List.length_replicate]
    omega
  rw [if_pos this]
  simp

theorem stacksLoop_grows (full : List Char) (k n : Nat) (prev : List Char) (sizes : List Nat)
    (h : n ≤ full.length) :
    stacksLoop full (k + 1) n prev sizes
      = stacksLoop full k (n * 2) (full.take n) (sizes ++ [n]) := by
  simp only [stacksLoop, runtimeStack_overflows full n _ h]
  have : ¬ n < (full.take n).length := by
    simp only [List.length_take]
    omega
  rw [if_neg this]

/-- The six ways the loop of `stacks` can run, by the size of the trace. -/
theorem stacksLoop_five (full : List Char) (n : Nat) :
    (full.length < n ∧ stacksLoop full 5 n [] [] = (full, [n])) ∨
    (n ≤ full.length ∧ full.length < n * 2 ∧
      stacksLoop full 5 n [] [] = (full, [n, n * 2])) ∨
    (n * 2 ≤ full.length ∧ full.length < n * 4 ∧
      stacksLoop full 5 n [] [] = (full, [n, n * 2, n * 4])) ∨
    (n * 4 ≤ full.length ∧ full.length < n * 8 ∧
      stacksLoop full 5 n [] [] = (full, [n, n * 2, n * 4, n * 8])) ∨
    (n * 8 ≤ full.length ∧ full.length < n * 16 ∧
      stacksLoop full 5 n [] [] = (full, [n, n * 2, n * 4, n * 8, n * 16])) ∨
    (n * 16 ≤ full.length ∧
      stacksLoop full 5 n [] [] = (full.take (n * 16), [n, n * 2, n * 4, n * 8, n * 16])) := by
  have e4 : n * 2 * 2 = n * 4 := by omega
  have e8 : n * 4 * 2 = n * 8 := by omega
  have e16 : n * 8 * 2 = n * 16 := by omega
  by_cases h1 : full.length < n
  · exact Or.inl ⟨h1, by rw [stacksLoop_fits full 4 n _ _ h1]; rfl⟩
  rw [stacksLoop_grows full 4 n _ _ (not_lt.mp h1)]
  by_cases h2 : full.length < n * 2
  · exact Or.inr (Or.inl ⟨not_lt.mp h1, h2, by rw [stacksLoop_fits full 3 _ _ _ h2]; rfl⟩)
  rw [stacksLoop_grows full 3 _ _ _ (not_lt.mp h2), e4]
  by_cases h3 : full.length < n * 4
  · exact Or.inr (Or.inr (Or.inl ⟨not_lt.mp h2, h3, by
      rw [stacksLoop_fits full 2 _ _ _ h3]; rfl⟩))
  rw [stacksLoop_grows full 2 _ _ _ (not_lt.mp h3), e8]
  by_cases h4 : full.length < n * 8
  · exact Or.inr (Or.inr (Or.inr (Or.inl ⟨not_lt.mp h3, h4, by
      rw [stacksLoop_fits full 1 _ _ _ h4]; rfl⟩)))
  rw [stacksLoop_grows full 1 _ _ _ (not_lt.mp h4), e16]
  by_cases h5 : full.length < n * 16
  · exact Or.inr (Or.inr (Or.inr (Or.inr (Or.inl ⟨not_lt.mp h4, h5, by
      rw [stacksLoop_fits full 0 _ _ _ h5]; rfl⟩))))
  rw [stacksLoop_grows full 0 _ _ _ (not_lt.mp h5)]
  exact Or.inr (Or.inr (Or.inr (Or.inr (Or.inr ⟨not_lt.mp h5, rfl⟩))))

theorem stacksLoop_first_fit (full : List Char) (n i : Nat) (hi : i ≤ 4)
    (hlt : full.length < n * 2 ^ i) (hprev : i = 0 ∨ n * 2 ^ (i - 1) ≤ full.length) :
    stacksLoop full 5 n [] [] = (full, (List.range (i + 1)).map (fun j => n * 2 ^ j)) := by
  interval_cases i <;> norm_num at hlt hprev <;>
    rcases stacksLoop_five full n with h | h | h | h | h | h <;>
    first
      | omega
      | (rw [h.2.2]; simp [List.range_succ])
      | (rw [h.2]; simp [List.range_succ])

theorem stacksLoop_exhausted (full : List Char) (n : Nat) (h : n * 16 ≤ full.length) :
    stacksLoop full 5 n [] []
      = (full.take (n * 16), (List.range 5).map (fun j => n * 2 ^ j)) := by
  rcases stacksLoop_five full n with h1 | h1 | h1 | h1 | h1 | h1 <;>
    first
      | omega
      | (rw [h1.2]; simp [List.range_succ])

/-- C9: `stacks(all)` on a trace of `T` bytes, the capture writing
`min(T, len(buf))` bytes, tries the buffer sizes `n0 * 2^i` for `i = 0..4`
with `n0 = 10000`, or `100000` when `all` is set. At the first `i <= 4` with
`T < n0 * 2^i` it returns the complete trace, `T` bytes, having used exactly the
buffers `n0 * 2^0 .. n0 * 2^i`; when there is no such `i` it returns after
exactly the five buffers the first `n0 * 16` bytes of the trace. It never makes
more than five attempts. -/
theorem C9_stacks_geometric_growth (all : Bool) (full : List Char) :
    (∀ i, i ≤ 4 → full.length < (if all then 100000 else 10000) * 2 ^ i →
      (∀ j, j < i → (if all then 100000 else 10000) * 2 ^ j ≤ full.length) →
      stacksFn all full
        = (full, (List.range (i + 1)).map (fun j => (if all then 100000 else 10000) * 2 ^ j))) ∧
    ((∃ i, i ≤ 4 ∧ full.length < (if all then 100000 else 10000) * 2 ^ i) →
      (stacksFn all full).1 = full ∧ (stacksFn all full).1.length = full.length) ∧
    ((∀ i, i ≤ 4 → (if all then 100000 else 10000) * 2 ^ i ≤ full.length) →
      stacksFn all full
        = (full.take ((if all then 100000 else 10000) * 16),
            (List.range 5).map (fun j => (if all then 100000 else 10000) * 2 ^ j)) ∧
      (stacksFn all full).1.length = (if all then 100000 else 10000) * 16) ∧
    (stacksFn all full).2.length ≤ 5 := by
  have hfn : stacksFn all full = stacksLoop full 5 (if all then 100000 else 10000) [] [] := by
    cases all <;> rfl
  generalize (if all then 100000 else 10000 : Nat) = n at hfn ⊢
  rw [hfn]
  refine ⟨?_, ?_, ?_, ?_⟩
  · intro i hi hlt hmin
    apply stacksLoop_first_fit full n i hi hlt
    rcases Nat.eq_zero_or_pos i with h0 | hpos
    · exact Or.inl h0
    · exact Or.inr (hmin (i - 1) (by omega))
  · rintro ⟨i, hi, hlt⟩
    have hmono : full.length < n * 16 := by
      have : n * 2 ^ i ≤ n * 2 ^ 4 := Nat.mul_le_mul_left n (Nat.pow_le_pow_right (by decide) hi)
      omega
    rcases stacksLoop_five full n with h | h | h | h | h | h <;>
      first
        | omega
        | (rw [h.2.2]; exact ⟨rfl, rfl⟩)
        | (rw [h.2]; exact ⟨rfl, rfl⟩)
  · intro hall
    have h16 : n * 16 ≤ full.length := by simpa using hall 4 (le_refl 4)
    rw [stacksLoop_exhausted full n h16]
    exact ⟨rfl, by simp [h16]⟩
  · rcases stacksLoop_five full n with h | h | h | h | h | h <;>
      first
        | (rw [h.2.2]; simp)
        | (rw [h.2]; simp)

/-- C9 on a short trace, which fits the first buffer, and on a trace of 160000
bytes, which fits none of the five buffers of the current-goroutine capture. -/
theorem C9_stacks_geometric_growth_witness :
    stacksFn false "goroutine 1 [running]:\n".data
      = ("goroutine 1 [running]:\n".data,
          (List.range (0 + 1)).map (fun j => (if false then 100000 else 10000) * 2 ^ j)) ∧
    (stacksFn false (List.replicate 160000 'x')).1.length
      = (if false then 100000 else 10000) * 16 :=
  ⟨(C9_stacks_geometric_growth false "goroutine 1 [running]:\n".data).1 0 (by decide)
      (by decide) (fun j hj => absurd hj (Nat.not_lt_zero j)),
    ((C9_stacks_geometric_growth false (List.replicate 160000 'x')).2.2.1 (by
      intro i hi
      rw [List.length_replicate]
      interval_cases i <;> decide)).2⟩

/-! ## Fatal sequence -/

/-- What `stacks` returns: the trace, cut to sixteen times the first buffer. -/
theorem stacksFn_fst (all : Bool) (full : List Char) :
    (stacksFn all full).1 = full.take ((if all then 100000 else 10000) * 16) := by
  have hfn : stacksFn all full = stacksLoop full 5 (if all then 100000 else 10000) [] [] := by
    cases all <;> rfl
  generalize (if all then 100000 else 10000 : Nat) = n at hfn ⊢
  rw [hfn]
  rcases stacksLoop_five full n with h | h | h | h | h | h
  · rw [h.2, List.take_of_length_le (by omega)]
  · rw [h.2.2, List.take_of_length_le (by omega)]
  · rw [h.2.2, List.take_of_length_le (by omega)]
  · rw [h.2.2, List.take_of_length_le (by omega)]
  · rw [h.2.2, List.take_of_length_le (by omega)]
  · rw [h.2]

theorem fatalEvents_eq (rt : Runtime) :
    fatalEvents rt
      = [Event.write Stream.Stderr (String.mk ((rt.stackTrace false).data.take 160000)),
          Event.unlock] ++
        (if rt.flushInTime = true then [Event.sync Stream.Stdout, Event.sync Stream.Stderr]
          else [Event.write Stream.Stderr "glog: Flush took longer than 10s\n"]) := by
  simp only [fatalEvents, stacksFn_fst, timeoutFlush, Flush]
  rfl

/-- C3 refuted as stated, at FATAL under the thresholds diff = NONE, err = NONE,
out = INFO: the router selects standard output, `output` ends the process with
status 255, and the record is on standard output; standard error holds the
stack trace only. -/
theorem C3_counterexample_fatal_record_on_stdout :
    selectOut FATAL NONE NONE INFO = some Stream.Stdout ∧
    (loggingT.mk NONE NONE INFO).output sampleRuntime FATAL
        "F0503 14:05:09 server.go:42] " "boom" true
      = ([Event.lock, Event.write Stream.Stdout ("F0503 14:05:09 server.go:42] " ++ "boom"),
          Event.write Stream.Stdout "\n",
          Event.write Stream.Stderr "goroutine 1 [running]:\n",
          Event.unlock, Event.sync Stream.Stdout, Event.sync Stream.Stderr],
        Outcome.exited 255) ∧
    written Stream.Stderr ((loggingT.mk NONE NONE INFO).output sampleRuntime FATAL
        "F0503 14:05:09 server.go:42] " "boom" true).1 = "goroutine 1 [running]:\n" ∧
    written Stream.Stdout ((loggingT.mk NONE NONE INFO).output sampleRuntime FATAL
        "F0503 14:05:09 server.go:42] " "boom" true).1
      = "F0503 14:05:09 server.go:42] " ++ "boom" ++ "\n" := by
  have hsel : selectOut FATAL NONE NONE INFO = some Stream.Stdout := by decide
  have hout : (loggingT.mk NONE NONE INFO).output sampleRuntime FATAL
        "F0503 14:05:09 server.go:42] " "boom" true
      = ([Event.lock, Event.write Stream.Stdout ("F0503 14:05:09 server.go:42] " ++ "boom"),
          Event.write Stream.Stdout "\n",
          Event.write Stream.Stderr "goroutine 1 [running]:\n",
          Event.unlock, Event.sync Stream.Stdout, Event.sync Stream.Stderr],
        Outcome.exited 255) := by
    rw [output_of_some (loggingT.mk NONE NONE INFO) sampleRuntime FATAL _ _ true
      Stream.Stdout hsel, if_pos rfl, fatalEvents_eq]
    rfl
  refine ⟨hsel, hout, ?_, ?_⟩
  · rw [hout]
    decide
  · rw [hout]
    decide

/-- C3, amended: `output` ends the process, with status 255, exactly when `s`
is FATAL and the router selected a destination. It has then written the record
to the selected stream (standard error when `FATAL <= dl` and `FATAL <= el`,
standard output when `dl < FATAL <= ol`), then the stack trace of the current
goroutine (at most 160000 bytes of it) to standard error, released the lock and
run the bounded flush: the two syncs, or the timeout diagnostic on standard
error. In every other case it returns, having produced either no event or the
record between lock and unlock; a FATAL record with `el = NONE` and
`dl >= FATAL` is dropped and `output` returns. -/
theorem C3_fatal_sequence_on_routed_stream (l : loggingT) (rt : Runtime) (s : severity)
    (header body : String) (enter : Bool) :
    ((l.output rt s header body enter).2 = Outcome.exited 255 ↔
      (s = FATAL ∧ (selectOut s l.getDiffLevel l.getErrLevel l.getOutLevel).isSome = true)) ∧
    (∀ code, (l.output rt s header body enter).2 = Outcome.exited code → code = 255) ∧
    (∀ out, s = FATAL → selectOut s l.getDiffLevel l.getErrLevel l.getOutLevel = some out →
      l.output rt s header body enter
        = ([Event.lock, Event.write out (header ++ body)] ++
            (if enter = true then [Event.write out "\n"] else []) ++
            [Event.write Stream.Stderr (String.mk ((rt.stackTrace false).data.take 160000)),
              Event.unlock] ++
            (if rt.flushInTime = true then [Event.sync Stream.Stdout, Event.sync Stream.Stderr]
              else [Event.write Stream.Stderr "glog: Flush took longer than 10s\n"]),
          Outcome.exited 255)) ∧
    ((selectOut FATAL l.getDiffLevel l.getErrLevel l.getOutLevel = some Stream.Stderr ↔
        (FATAL ≤ l.getDiffLevel ∧ FATAL ≤ l.getErrLevel)) ∧
      (selectOut FATAL l.getDiffLevel l.getErrLevel l.getOutLevel = some Stream.Stdout ↔
        (l.getDiffLevel < FATAL ∧ FATAL ≤ l.getOutLevel))) ∧
    (¬ (s = FATAL ∧ (selectOut s l.getDiffLevel l.getErrLevel l.getOutLevel).isSome = true) →
      (l.output rt s header body enter).2 = Outcome.returned ∧
      ((l.output rt s header body enter).1 = [] ∨
        ∃ out, (l.output rt s header body enter).1
          = [Event.lock, Event.write out (header ++ body)] ++
              (if enter = true then [Event.write out "\n"] else []) ++ [Event.unlock])) ∧
    (∀ dl ol : severity, dl ≥ FATAL →
      (loggingT.mk dl NONE ol).output rt FATAL header body enter = ([], Outcome.returned)) := by
  refine ⟨?_, ?_, ?_, ⟨?_, ?_⟩, ?_, ?_⟩
  · cases h : selectOut s l.getDiffLevel l.getErrLevel l.getOutLevel with
    | none => simp [output_of_none l rt s header body enter h]
    | some out =>
      rw [output_of_some l rt s header body enter out h]
      by_cases hs : s = FATAL <;> simp [hs]
  · intro code
    cases h : selectOut s l.getDiffLevel l.getErrLevel l.getOutLevel with
    | none => simp [output_of_none l rt s header body enter h]
    | some out =>
      rw [output_of_some l rt s header body enter out h]
      by_cases hs : s = FATAL
      · simp only [if_pos hs, Outcome.exited.injEq]
        exact fun e => e.symm
      · simp [hs]
  · intro out hs h
    rw [output_of_some l rt s header body enter out h, if_pos hs, fatalEvents_eq]
    simp [recordEvents]
  · rw [selectOut_eq_routeSpec]
    unfold routeSpec
    by_cases h1 : FATAL ≤ l.getDiffLevel ∧ FATAL ≤ l.getErrLevel
    · simp [h1]
    · by_cases h2 : FATAL > l.getDiffLevel ∧ FATAL ≤ l.getOutLevel <;> simp [h1, h2]
  · rw [selectOut_eq_routeSpec]
    unfold routeSpec
    by_cases h1 : FATAL ≤ l.getDiffLevel ∧ FATAL ≤ l.getErrLevel
    · have : ¬ l.getDiffLevel < FATAL := not_lt.mpr h1.1
      simp [h1, this]
    · by_cases h2 : FATAL > l.getDiffLevel ∧ FATAL ≤ l.getOutLevel
      · simp [h1, h2]
      · simp only [if_neg h1, if_neg h2]
        constructor
        · intro h
          cases h
        · intro h
          exact absurd ⟨h.1, h.2⟩ h2
  · intro hn
    cases h : selectOut s l.getDiffLevel l.getErrLevel l.getOutLevel with
    | none => simp [output_of_none l rt s header body enter h]
    | some out =>
      have hs : s ≠ FATAL := fun hs => hn ⟨hs, by simp [h]⟩
      rw [output_of_some l rt s header body enter out h]
      simp only [if_neg hs, true_and]
      exact Or.inr ⟨out, by simp [recordEvents]⟩
  · intro dl ol hdl
    apply output_of_none
    have a : ¬ (FATAL ≤ dl ∧ FATAL ≤ NONE) := fun h => absurd h.2 (by decide)
    have b : ¬ (FATAL > dl ∧ FATAL ≤ ol) := fun h => absurd hdl (not_le.mpr h.1)
    simp [selectOut, loggingT.getDiffLevel, loggingT.getErrLevel, loggingT.getOutLevel, a, b]

end xclog
